import Mathlib

/-!
# TaxPal retrieval-and-citation core: verification development

A shallow embedding of the TaxPal repository's data model and operations.
The repository under verification contains the frontend (TypeScript/React)
and the design documents; the retrieval core (Hybrid Retriever, Context
Assembler, Citation Binder) is specified but its implementation is not in
the repository, so those components are modelled from the specification
text, as noted on each definition.  Frontend components (`ChatContext`,
`ChatMessage`, the `Citation`/`ChatMessage` types) are translated from the
TypeScript sources.
-/

namespace TaxPal

/-! ## Retrieval configuration and candidates -/

/-- Modelled from the spec: §4.4 and §9 — fusion weights `wLex`/`wVec`,
the reciprocal-rank-fusion constant `κ`, the top-N cutoff, and the
maximum accepted query length (oversized input is an `InvalidQuery`).
Scores are rationals (the implementation's real-valued scores). -/
structure RetrievalConfig where
  wLex : ℚ
  wVec : ℚ
  kappa : ℕ
  topN : ℕ
  maxQueryLen : ℕ
deriving Repr, DecidableEq

/-- Modelled from the spec: §3 `QueryCandidate` — ephemeral per-query
record holding the chunk reference and the fused score.  The candidate's
rank is its position in the returned list. -/
structure QueryCandidate where
  chunkVersionId : ℕ
  fusedScore : ℚ
deriving Repr, DecidableEq

/-- One-based rank of a chunk id in a ranked result list (`none` when the
chunk does not appear in that list). -/
def rankOf (ranked : List ℕ) (id : ℕ) : Option ℕ :=
  (ranked.findIdx? (· == id)).map (· + 1)

/-- Index of the first occurrence of `x` in a list of chunk ids (the
list's length when absent). -/
def firstIdx : List ℕ → ℕ → ℕ
  | [], _ => 0
  | a :: l, x => if x = a then 0 else firstIdx l x + 1

/-- Modelled from the spec: §4.4 step 3/4 — one list's contribution to the
weighted reciprocal-rank fusion: `w / (rank + κ)` when the chunk appears in
the list, `0` otherwise. -/
def rrfContribution (w : ℚ) (kappa : ℕ) (ranked : List ℕ) (id : ℕ) : ℚ :=
  match rankOf ranked id with
  | some r => w / ((r : ℚ) + (kappa : ℚ))
  | none => 0

/-- First-occurrence deduplication by a key function, carrying the set of
keys already emitted: each key is kept once, at its first appearance. -/
def dedupKeyAux (key : α → ℕ) (seen : List ℕ) : List α → List α
  | [] => []
  | a :: l =>
    if key a ∈ seen then dedupKeyAux key seen l
    else a :: dedupKeyAux key (key a :: seen) l

/-- First-occurrence deduplication by a key function. -/
def dedupKey (key : α → ℕ) (l : List α) : List α := dedupKeyAux key [] l

/-- First-occurrence deduplication of a list of chunk ids (the union of
the two result lists, each id kept once, at its first appearance). -/
def dedupIds (l : List ℕ) : List ℕ := dedupKey (fun x => x) l

/-- Comparator for §4.4 step 5: descending fused score, ties broken by
ascending `chunkVersionId`. -/
def candLE (a b : QueryCandidate) : Bool :=
  decide (b.fusedScore < a.fusedScore ∨
    (a.fusedScore = b.fusedScore ∧ a.chunkVersionId ≤ b.chunkVersionId))

/-- Modelled from the spec: §4.4 steps 2–6 — weighted reciprocal-rank
fusion of the lexical and vector ranked id lists, sorted descending by
fused score (ties by ascending chunk id) and cut to the top N. -/
def fuse (cfg : RetrievalConfig) (lexRanked vecRanked : List ℕ) :
    List QueryCandidate :=
  (((dedupIds (lexRanked ++ vecRanked)).map fun id =>
    { chunkVersionId := id
      fusedScore := rrfContribution cfg.wLex cfg.kappa lexRanked id +
        rrfContribution cfg.wVec cfg.kappa vecRanked id :
      QueryCandidate }).mergeSort candLE).take cfg.topN

/-- Modelled from the spec: §7 error taxonomy (the retrieval-side cases). -/
inductive RetrievalError
  | invalidQuery
  | indexUnavailable
  | generationFailure
deriving Repr, DecidableEq

/-- Modelled from the spec: §4.2/§4.3 — the two indices, abstracted as
functions from query text and optional as-of date to a ranked list of
chunkVersionIds (lexical: descending BM25; vector: descending cosine
similarity). -/
structure Indexes where
  lexRanked : String → Option ℕ → List ℕ
  vecRanked : String → Option ℕ → List ℕ

/-- Modelled from the spec: §4.4 — the Hybrid Retriever entry point.
Empty or oversized query text is rejected with `InvalidQuery` before
either index function is consulted; otherwise both indices are read and
their rankings fused. -/
def retrieve (cfg : RetrievalConfig) (idx : Indexes) (q : String)
    (asOf : Option ℕ) : Except RetrievalError (List QueryCandidate) :=
  if q = "" ∨ q.length > cfg.maxQueryLen then
    .error .invalidQuery
  else
    .ok (fuse cfg (idx.lexRanked q asOf) (idx.vecRanked q asOf))

/-! ## Chunks and the Context Assembler -/

/-- Modelled from the spec: §4.6 — the source reference carried by a
chunk, one constructor per citation source type
(`legislation | guidance | definition`). -/
inductive SourceRef
  | legislation (actName : String) (year : ℕ) (sectionNo : String)
      (subsectionNo : Option String)
  | guidance (partNo chapterNo sectionNo title lastUpdated : String)
  | definition (sourceName reference : String)
deriving Repr, DecidableEq

/-- Modelled from the spec: §3 `ChunkVersion` — the attributes the
retrieval core reads: the version id, the owning `LegislationNode` id,
the full text, its token count (used by the assembler's budget) and the
source reference used for citation rendering. -/
structure Chunk where
  chunkVersionId : ℕ
  nodeId : ℕ
  text : String
  tokens : ℕ
  source : SourceRef
deriving Repr, DecidableEq

/-- Modelled from the spec: §3 `LegislationNode` — only the parent
relation matters to the assembler; the tree is given as a partial parent
map (roots map to `none`). -/
def ParentMap := ℕ → Option ℕ

/-- `ancestorWithin parent a b d` — `a` is a strict ancestor of `b` at
distance at most `d` in the parent tree. -/
def ancestorWithin (parent : ParentMap) (a b : ℕ) : ℕ → Bool
  | 0 => false
  | d + 1 =>
    match parent b with
    | none => false
    | some p => p == a || ancestorWithin parent a p d

/-- Modelled from the spec: §4.5 — two nodes are hierarchy-near when one
is an ancestor or descendant of the other within the configured distance
threshold. -/
def hierarchyNear (parent : ParentMap) (threshold : ℕ) (a b : ℕ) : Bool :=
  ancestorWithin parent a b threshold || ancestorWithin parent b a threshold

/-- One entry of an assembled context block: the synthetic anchor label
(`[C1]`, `[C2]`, …) and the chunk it names. -/
structure ContextEntry where
  label : String
  chunk : Chunk
deriving Repr, DecidableEq

/-- Modelled from the spec: §4.5 — the assembler's output: the ordered
labelled chunks and the truncation flag. -/
structure ContextBlock where
  entries : List ContextEntry
  truncated : Bool
deriving Repr, DecidableEq

/-- Synthetic anchor label for the `i`-th included chunk (0-based):
`[C1]`, `[C2]`, … -/
def labelOf (i : ℕ) : String := "[C" ++ toString (i + 1) ++ "]"

/-- Modelled from the spec: §4.5 — greedy selection pass: iterate the
candidates in fused-rank order, skip a chunk hierarchy-near an
already-included one, stop early (setting the truncation flag) when the
next chunk would exceed the token budget. -/
def selectChunks (parent : ParentMap) (threshold budget : ℕ) :
    List Chunk → List Chunk → ℕ → List Chunk × Bool
  | [], included, _ => (included, false)
  | c :: rest, included, used =>
    if included.any fun i => hierarchyNear parent threshold i.nodeId c.nodeId then
      selectChunks parent threshold budget rest included used
    else if used + c.tokens > budget then
      (included, true)
    else
      selectChunks parent threshold budget rest (included ++ [c]) (used + c.tokens)

/-- Modelled from the spec: §4.5 — the Context Assembler: select chunks
greedily under the hierarchy-dedup rule and the token budget, then label
each included chunk `[C1]`, `[C2]`, … in order. -/
def assemble (parent : ParentMap) (threshold budget : ℕ)
    (candidates : List Chunk) : ContextBlock :=
  { entries := ((selectChunks parent threshold budget candidates [] 0).1.enum).map
      fun p => { label := labelOf p.1, chunk := p.2 }
    truncated := (selectChunks parent threshold budget candidates [] 0).2 }

/-! ## The Citation Binder -/

/-- Modelled from the spec: §6/§9 — the generated answer as a finite
sequence of fragments: plain text pieces and echoed anchor labels. -/
inductive AnswerPart
  | text (s : String)
  | anchor (label : String)
deriving Repr, DecidableEq

/-- The anchor labels occurring in the generated answer, in order of
appearance. -/
def anchorsOf (parts : List AnswerPart) : List String :=
  parts.filterMap fun p =>
    match p with
    | .anchor l => some l
    | .text _ => none

/-- The plain text of the generated answer (anchors stripped). -/
def answerTextOf (parts : List AnswerPart) : String :=
  String.join (parts.map fun p =>
    match p with
    | .text s => s
    | .anchor _ => "")

/-- Modelled from the spec: §4.6 — resolve each anchor of the answer to
its context chunk; an anchor matching no context label is dropped. -/
def resolveAnchors (ctx : List ContextEntry) (anchors : List String) :
    List Chunk :=
  anchors.filterMap fun l => (ctx.find? fun e => e.label == l).map (·.chunk)

/-- Modelled from the spec: §4.6 — the chunks cited by an answer: the
resolved anchors in appearance order; when the answer contains no anchors
at all, fall back to every context chunk (conservative citation). -/
def citedChunks (ctx : List ContextEntry) (parts : List AnswerPart) :
    List Chunk :=
  if anchorsOf parts = [] then ctx.map (·.chunk)
  else resolveAnchors ctx (anchorsOf parts)

/-- Modelled from the spec: §4.6 — the canonical citation string for each
source type (bit-exact compatibility surface). -/
def renderReference : SourceRef → String
  | .legislation act year sec none =>
      act ++ " " ++ toString year ++ ", Section " ++ sec
  | .legislation act year sec (some sub) =>
      act ++ " " ++ toString year ++ ", Section " ++ sec ++
        ", Subsection " ++ sub
  | .guidance partNo chapterNo sectionNo title lastUpdated =>
      "Revenue Tax and Duty Manual, Part " ++ partNo ++ "-" ++ chapterNo ++
        "-" ++ sectionNo ++ ", " ++ title ++ ", " ++ lastUpdated
  | .definition src ref => src ++ ", " ++ ref

/-- The source-type tag of a chunk's source reference, as a string. -/
def sourceTypeName : SourceRef → String
  | .legislation _ _ _ _ => "legislation"
  | .guidance _ _ _ _ _ => "guidance"
  | .definition _ _ => "definition"

/-- Modelled from the spec: §3 `Citation` — derived per response: source
type, rendered reference label, chunk version id, display text. -/
structure Citation where
  source : String
  reference : String
  chunkVersionId : ℕ
  text : String
deriving Repr, DecidableEq

/-- Modelled from the spec: §4.6 — the Citation Binder: resolve the
answer's anchors (with the no-anchor fallback), de-duplicate by
`chunkVersionId` keeping first-appearance order, and render each citation
in canonical form. -/
def bindCitations (ctx : List ContextEntry) (parts : List AnswerPart) :
    List Citation :=
  (dedupKey Chunk.chunkVersionId (citedChunks ctx parts)).map fun c =>
    { source := sourceTypeName c.source
      reference := renderReference c.source
      chunkVersionId := c.chunkVersionId
      text := c.text }

/-! ## The exposed query operation `ask` -/

/-- The wire shape of one citation as exposed by `ask` and consumed by the
frontend: exactly the fields `source`, `reference` and `text`
(`src/frontend/src/utils/supabase.ts`, the `Citation` interface). -/
structure WireCitation where
  source : String
  reference : String
  text : String
deriving Repr, DecidableEq

/-- Project an internal citation onto the exposed wire shape. -/
def Citation.toWire (c : Citation) : WireCitation :=
  { source := c.source, reference := c.reference, text := c.text }

/-- Modelled from the spec: §6 — the result record of the exposed query
operation: `{ answerText, citations, truncated }`. -/
structure AskResult where
  answerText : String
  citations : List WireCitation
  truncated : Bool
deriving Repr, DecidableEq

/-- Modelled from the spec: §2/§6 — the full pipeline behind
`ask(queryText, asOfDate?)`: hybrid retrieval, chunk-store lookup of the
candidates, context assembly, the external generation collaborator
(passed in as a function from the assembled context to answer fragments),
and citation binding. -/
def ask (cfg : RetrievalConfig) (idx : Indexes) (store : ℕ → Option Chunk)
    (parent : ParentMap) (threshold budget : ℕ)
    (gen : List ContextEntry → List AnswerPart)
    (queryText : String) (asOfDate : Option ℕ) :
    Except RetrievalError AskResult :=
  match retrieve cfg idx queryText asOfDate with
  | .error e => .error e
  | .ok candidates =>
    .ok { answerText := answerTextOf (gen (assemble parent threshold budget
            (candidates.filterMap fun c => store c.chunkVersionId)).entries)
          citations := (bindCitations (assemble parent threshold budget
            (candidates.filterMap fun c => store c.chunkVersionId)).entries
            (gen (assemble parent threshold budget
              (candidates.filterMap fun c =>
                store c.chunkVersionId)).entries)).map Citation.toWire
          truncated := (assemble parent threshold budget
            (candidates.filterMap fun c => store c.chunkVersionId)).truncated }

/-! ## Frontend: chat state and `sendMessage`
(`src/frontend/src/contexts/AuthContext.tsx`, the `ChatContext` part) -/

/-- The message role (`'user' | 'assistant'`, `src/types/index.ts`). -/
inductive Role
  | user
  | assistant
deriving Repr, DecidableEq

/-- The frontend `ChatMessage` type (`src/types/index.ts`): id, role,
content, optional citations, optional token count, timestamp. -/
structure FrontMessage where
  id : String
  role : Role
  content : String
  citations : Option (List WireCitation)
  tokensUsed : Option ℕ
  timestamp : ℕ
deriving Repr, DecidableEq

/-- The frontend `ChatSession` type (`src/types/index.ts`). -/
structure ChatSession where
  id : String
  title : String
  messages : List FrontMessage
  createdAt : ℕ
deriving Repr, DecidableEq

/-- The `ChatContext` state: the session list, the current session, the
loading flag and the error message (`null` ↦ `none`). -/
structure ChatState where
  sessions : List ChatSession
  currentSession : Option ChatSession
  isLoading : Bool
  error : Option String
deriving Repr, DecidableEq

/-- The shape returned by `chatApi.sendMessage`
(`response`, `citations`, `tokens_used`). -/
structure ApiResponse where
  response : String
  citations : List WireCitation
  tokensUsed : ℕ
deriving Repr, DecidableEq

/-- An error thrown by the backend call; `message` may be empty
(JavaScript's `err.message || 'Failed to send message'` falls back on any
falsy message). -/
structure ApiError where
  message : String
deriving Repr, DecidableEq

/-- `updateSession` from `ChatContext`: replace the session with the same
id in the session list. -/
def updateSession (sessions : List ChatSession) (s : ChatSession) :
    List ChatSession :=
  sessions.map fun t => if t.id = s.id then s else t

/-- `sendMessage` from `ChatContext` as a state transition.  The generated
ids and timestamps (`uuidv4()`, `Date.now()`) and the outcome of the
`chatApi.sendMessage` call are passed in as arguments.  The returned state
is the state after the handler completes (the `finally` block has cleared
the loading flag). -/
def sendMessage (st : ChatState) (content : String)
    (userId assistantId : String) (ts : ℕ)
    (api : Except ApiError ApiResponse) : ChatState :=
  match st.currentSession with
  | none => st
  | some cur =>
    let userMessage : FrontMessage :=
      { id := userId, role := .user, content := content,
        citations := none, tokensUsed := none, timestamp := ts }
    let updatedSession := { cur with messages := cur.messages ++ [userMessage] }
    let st1 : ChatState :=
      { sessions := updateSession st.sessions updatedSession
        currentSession := some updatedSession
        isLoading := true
        error := none }
    match api with
    | .ok resp =>
      let assistantMessage : FrontMessage :=
        { id := assistantId, role := .assistant, content := resp.response,
          citations := some resp.citations,
          tokensUsed := some resp.tokensUsed, timestamp := ts }
      let finalSession :=
        { updatedSession with
            messages := updatedSession.messages ++ [assistantMessage] }
      { sessions := updateSession st1.sessions finalSession
        currentSession := some finalSession
        isLoading := false
        error := none }
    | .error e =>
      { st1 with
          isLoading := false
          error := some (if e.message = "" then "Failed to send message"
            else e.message) }

/-! ## Frontend: `ChatMessage` rendering
(`src/components/chat/ChatMessage.tsx`) -/

/-- One rendered citation badge: the badge shows
`{citation.source} {citation.reference}`; the full `text` appears only as
the tooltip label. -/
structure RenderedBadge where
  badgeText : String
  tooltip : String
deriving Repr, DecidableEq

/-- The citations section of a rendered `ChatMessage`: present only when
`message.citations && message.citations.length > 0`, in which case each
citation becomes a badge. -/
def renderCitationSection (m : FrontMessage) : Option (List RenderedBadge) :=
  match m.citations with
  | none => none
  | some cs =>
    if cs.length > 0 then
      some (cs.map fun c =>
        { badgeText := c.source ++ " " ++ c.reference, tooltip := c.text })
    else none

/-! ## Concrete instances used by scenario conjuncts and witnesses -/

/-- The context chunk of the spec's Scenario A: Finance Act 2023,
Section 15. -/
def scenarioAChunk : Chunk :=
  { chunkVersionId := 101
    nodeId := 15
    text := "Section 15 ... 20 per cent on the first EUR 40,000 ..."
    tokens := 40
    source := .legislation "Finance Act" 2023 "15" none }

/-- Scenario A's context block: one chunk, labelled `[C1]`. -/
def scenarioAContext : List ContextEntry :=
  [{ label := "[C1]", chunk := scenarioAChunk }]

/-- Scenario A's generated answer: text echoing the `[C1]` anchor. -/
def scenarioAAnswer : List AnswerPart :=
  [.text "According to the Finance Act 2023, Section 15, the rates are ... ",
   .anchor "[C1]"]

/-- A small concrete retrieval configuration used by witnesses. -/
def cfgW : RetrievalConfig :=
  { wLex := 1/2, wVec := 1/2, kappa := 60, topN := 5, maxQueryLen := 256 }

/-- Concrete indexes that return no candidates for any query. -/
def idxEmpty : Indexes := ⟨fun _ _ => [], fun _ _ => []⟩

/-- Concrete indexes whose lexical side returns the single chunk id 5. -/
def idxSingle : Indexes := ⟨fun _ _ => [5], fun _ _ => []⟩

/-- Scenario D's parent map: node 3 is a child of node 2. -/
def parentD : ParentMap := fun n => if n = 3 then some 2 else none

/-- Scenario D's higher-ranked candidate, on the parent node 2. -/
def chunkD1 : Chunk :=
  { chunkVersionId := 1, nodeId := 2, text := "parent section", tokens := 10
    source := .definition "src" "ref1" }

/-- Scenario D's lower-ranked candidate, on the child node 3. -/
def chunkD2 : Chunk :=
  { chunkVersionId := 2, nodeId := 3, text := "child subsection", tokens := 10
    source := .definition "src" "ref2" }

/-- A concrete empty chat session, used by witnesses. -/
def sessW : ChatSession :=
  { id := "s1", title := "New Chat", messages := [], createdAt := 0 }

/-- A concrete chat state holding `sessW` as the current session. -/
def stW : ChatState :=
  { sessions := [sessW], currentSession := some sessW,
    isLoading := false, error := none }

/-- The concrete user message `sendMessage` appends in the witness. -/
def userMsgW : FrontMessage :=
  { id := "u1", role := .user, content := "What are the income tax rates?",
    citations := none, tokensUsed := none, timestamp := 7 }

/-- A concrete assistant message without citations. -/
def msgNoCitations : FrontMessage :=
  { id := "m1", role := .assistant, content := "answer",
    citations := none, tokensUsed := none, timestamp := 0 }

/-- A concrete citation as the frontend receives it. -/
def citW : WireCitation :=
  { source := "Finance Act 2023", reference := "Section 15",
    text := "Section 15 provides ..." }

/-- A concrete assistant message with one citation. -/
def msgOneCitation : FrontMessage :=
  { id := "m2", role := .assistant, content := "answer",
    citations := some [citW], tokensUsed := none, timestamp := 0 }

/-- A concrete chunk store holding the single chunk id 5. -/
def storeW : ℕ → Option Chunk := fun id =>
  if id = 5 then
    some { chunkVersionId := 5, nodeId := 15
           text := "Section 15 ... 20 per cent on the first EUR 40,000 ..."
           tokens := 40
           source := .legislation "Finance Act" 2023 "15" none }
  else none

/-- A concrete generation collaborator echoing the `[C1]` anchor. -/
def genW : List ContextEntry → List AnswerPart := fun _ =>
  [.text "The standard rate is 20 per cent. ", .anchor "[C1]"]

/-! ## Helper lemmas -/

theorem mem_of_mem_dedupKeyAux {α : Type} {key : α → ℕ} {a : α} :
    ∀ (seen : List ℕ) (l : List α), a ∈ dedupKeyAux key seen l → a ∈ l := by
  intro seen l
  induction l generalizing seen with
  | nil => simp [dedupKeyAux]
  | cons b l ih =>
    intro h
    simp only [dedupKeyAux] at h
    by_cases hb : key b ∈ seen
    · rw [if_pos hb] at h
      exact List.mem_cons_of_mem _ (ih seen h)
    · rw [if_neg hb] at h
      rcases List.mem_cons.mp h with h | h
      · exact h ▸ List.mem_cons_self _ _
      · exact List.mem_cons_of_mem _ (ih _ h)

theorem key_not_seen_of_mem_dedupKeyAux {α : Type} {key : α → ℕ} {a : α} :
    ∀ (seen : List ℕ) (l : List α), a ∈ dedupKeyAux key seen l →
      key a ∉ seen := by
  intro seen l
  induction l generalizing seen with
  | nil => simp [dedupKeyAux]
  | cons b l ih =>
    intro h
    simp only [dedupKeyAux] at h
    by_cases hb : key b ∈ seen
    · rw [if_pos hb] at h
      exact ih seen h
    · rw [if_neg hb] at h
      rcases List.mem_cons.mp h with h | h
      · exact h ▸ hb
      · intro hs
        exact ih _ h (List.mem_cons_of_mem _ hs)

theorem nodup_map_key_dedupKeyAux {α : Type} {key : α → ℕ} :
    ∀ (seen : List ℕ) (l : List α),
      ((dedupKeyAux key seen l).map key).Nodup := by
  intro seen l
  induction l generalizing seen with
  | nil => simp [dedupKeyAux]
  | cons b l ih =>
    simp only [dedupKeyAux]
    by_cases hb : key b ∈ seen
    · rw [if_pos hb]
      exact ih seen
    · rw [if_neg hb]
      rw [List.map_cons, List.nodup_cons]
      refine ⟨?_, ih _⟩
      intro hmem
      rcases List.mem_map.mp hmem with ⟨c, hc, hkc⟩
      exact key_not_seen_of_mem_dedupKeyAux _ _ hc
        (hkc ▸ List.mem_cons_self _ _)

theorem key_mem_of_mem_dedupKeyAux {α : Type} {key : α → ℕ} :
    ∀ (seen : List ℕ) (l : List α) (x : α), x ∈ l →
      key x ∈ seen ∨ key x ∈ (dedupKeyAux key seen l).map key := by
  intro seen l
  induction l generalizing seen with
  | nil => simp
  | cons b l ih =>
    intro x hx
    simp only [dedupKeyAux]
    rcases List.mem_cons.mp hx with hx | hx
    · by_cases hb : key b ∈ seen
      · exact Or.inl (hx ▸ hb)
      · rw [if_neg hb, List.map_cons]
        exact Or.inr (hx ▸ List.mem_cons_self _ _)
    · by_cases hb : key b ∈ seen
      · rw [if_pos hb]
        exact ih seen x hx
      · rw [if_neg hb, List.map_cons]
        rcases ih (key b :: seen) x hx with h | h
        · rcases List.mem_cons.mp h with h | h
          · exact Or.inr (h ▸ List.mem_cons_self _ _)
          · exact Or.inl h
        · exact Or.inr (List.mem_cons_of_mem _ h)

theorem pairwise_firstIdx_dedupKeyAux {α : Type} {key : α → ℕ} :
    ∀ (seen : List ℕ) (l : List α),
      (dedupKeyAux key seen l).Pairwise fun a b =>
        firstIdx (l.map key) (key a) < firstIdx (l.map key) (key b) := by
  intro seen l
  induction l generalizing seen with
  | nil => simp [dedupKeyAux]
  | cons b l ih =>
    simp only [dedupKeyAux, List.map_cons]
    by_cases hb : key b ∈ seen
    · rw [if_pos hb]
      refine (ih seen).imp_of_mem ?_
      intro a c ha hc h
      have hka : key a ≠ key b :=
        fun e => key_not_seen_of_mem_dedupKeyAux _ _ ha (e ▸ hb)
      have hkc : key c ≠ key b :=
        fun e => key_not_seen_of_mem_dedupKeyAux _ _ hc (e ▸ hb)
      simp only [firstIdx, if_neg hka, if_neg hkc]
      omega
    · rw [if_neg hb]
      rw [List.pairwise_cons]
      constructor
      · intro c hc
        have hkc : key c ≠ key b := fun e =>
          key_not_seen_of_mem_dedupKeyAux _ _ hc (e ▸ List.mem_cons_self _ _)
        simp only [firstIdx, if_neg hkc, eq_self_iff_true, if_true]
        omega
      · refine (ih (key b :: seen)).imp_of_mem ?_
        intro a c ha hc h
        have hka : key a ≠ key b := fun e =>
          key_not_seen_of_mem_dedupKeyAux _ _ ha (e ▸ List.mem_cons_self _ _)
        have hkc : key c ≠ key b := fun e =>
          key_not_seen_of_mem_dedupKeyAux _ _ hc (e ▸ List.mem_cons_self _ _)
        simp only [firstIdx, if_neg hka, if_neg hkc]
        omega

theorem rrfContribution_of_not_mem (w : ℚ) (kappa : ℕ) (ranked : List ℕ)
    (id : ℕ) (h : id ∉ ranked) : rrfContribution w kappa ranked id = 0 := by
  have hnone : ranked.findIdx? (· == id) = none := by
    rw [List.findIdx?_eq_none_iff]
    intro x hx
    simp only [beq_eq_false_iff_ne]
    exact fun e => h (e ▸ hx)
  simp [rrfContribution, rankOf, hnone]

/-! ## Claim theorems -/

/-- C4: for every citation of source type legislation, the rendered
citation string is exactly `"<Act Name> <Year>, Section <Number>"` with an
optional `", Subsection <Number>"` suffix; and in Scenario A (a context
chunk from Finance Act 2023 Section 15 whose label `[C1]` is echoed by the
generator) the rendered citation is exactly
`"Finance Act 2023, Section 15"`. -/
theorem legislation_citation_format :
    (∀ (act : String) (year : ℕ) (sec : String),
      renderReference (.legislation act year sec none) =
        act ++ " " ++ toString year ++ ", Section " ++ sec) ∧
    (∀ (act : String) (year : ℕ) (sec sub : String),
      renderReference (.legislation act year sec (some sub)) =
        act ++ " " ++ toString year ++ ", Section " ++ sec ++
          ", Subsection " ++ sub) ∧
    (bindCitations scenarioAContext scenarioAAnswer).map Citation.reference =
      ["Finance Act 2023, Section 15"] := by
  refine ⟨fun act year sec => rfl, fun act year sec sub => rfl, ?_⟩
  decide

/-- C6: an empty query is rejected with `InvalidQuery` whatever the
indices hold (so before any index read), while a valid query for which
both indices return zero candidates yields the empty result list, not an
error. -/
theorem retrieve_error_behaviour :
    (∀ (cfg : RetrievalConfig) (idx : Indexes) (asOf : Option ℕ),
      retrieve cfg idx "" asOf = .error .invalidQuery) ∧
    (∀ (cfg : RetrievalConfig) (idx : Indexes) (q : String) (asOf : Option ℕ),
      q ≠ "" → q.length ≤ cfg.maxQueryLen →
      idx.lexRanked q asOf = [] → idx.vecRanked q asOf = [] →
      retrieve cfg idx q asOf = .ok []) := by
  constructor
  · intro cfg idx asOf
    simp [retrieve]
  · intro cfg idx q asOf hq hlen hl hv
    rw [retrieve, if_neg]
    · rw [hl, hv]
      simp [fuse, dedupIds, dedupKey, dedupKeyAux]
    · push_neg
      exact ⟨hq, hlen⟩

/-- C6 witness: the empty query fails with `InvalidQuery` on a concrete
configuration, and a concrete non-empty query against empty indices
returns the empty candidate list. -/
theorem retrieve_error_behaviour_witness :
    retrieve cfgW idxEmpty "" none = .error .invalidQuery ∧
    retrieve cfgW idxEmpty "vat rates" none = .ok [] :=
  ⟨retrieve_error_behaviour.1 cfgW idxEmpty none,
   retrieve_error_behaviour.2 cfgW idxEmpty "vat rates" none
     (by decide) (by decide) rfl rfl⟩

/-- C9: when a current session exists and the backend call throws, the
state after `sendMessage` still holds the user's message at the end of
the session, gained no assistant message, carries a non-empty error
message, and has the loading flag cleared. -/
theorem sendMessage_error_path (st : ChatState) (cur : ChatSession)
    (content userId assistantId : String) (ts : ℕ) (e : ApiError)
    (hcur : st.currentSession = some cur) :
    (sendMessage st content userId assistantId ts (.error e)).currentSession =
      some { cur with messages := cur.messages ++
        [{ id := userId, role := .user, content := content, citations := none,
           tokensUsed := none, timestamp := ts }] } ∧
    (∀ m ∈ cur.messages ++
        [{ id := userId, role := .user, content := content, citations := none,
           tokensUsed := none, timestamp := ts : FrontMessage }],
      m.role = .assistant → m ∈ cur.messages) ∧
    (∃ s, (sendMessage st content userId assistantId ts (.error e)).error =
        some s ∧ s ≠ "") ∧
    (sendMessage st content userId assistantId ts (.error e)).isLoading =
      false := by
  rw [sendMessage, hcur]
  refine ⟨rfl, ?_, ?_, rfl⟩
  · intro m hm hrole
    rcases List.mem_append.mp hm with h | h
    · exact h
    · rcases List.mem_singleton.mp h with rfl
      simp at hrole
  · by_cases he : e.message = ""
    · exact ⟨"Failed to send message", by simp [he], by decide⟩
    · exact ⟨e.message, by simp [he], he⟩

/-- C9 witness: a concrete state with a current session, run against a
failing backend call with an empty error message. -/
theorem sendMessage_error_path_witness :
    (sendMessage stW "What are the income tax rates?" "u1" "a1" 7
        (.error { message := "" })).currentSession =
      some { sessW with messages := sessW.messages ++ [userMsgW] } ∧
    (∀ m ∈ sessW.messages ++ [userMsgW],
      m.role = .assistant → m ∈ sessW.messages) ∧
    (∃ s, (sendMessage stW "What are the income tax rates?" "u1" "a1" 7
        (.error { message := "" })).error = some s ∧ s ≠ "") ∧
    (sendMessage stW "What are the income tax rates?" "u1" "a1" 7
        (.error { message := "" })).isLoading = false :=
  sendMessage_error_path stW sessW "What are the income tax rates?"
    "u1" "a1" 7 { message := "" } rfl

/-- C10: a chat message with absent or empty citations renders no
citations section; a message with a non-empty citation list renders each
citation as its `source` and `reference` fields joined by a space, with
the `text` field only in the tooltip. -/
theorem renderCitationSection_behaviour (m : FrontMessage) :
    ((m.citations = none ∨ m.citations = some []) →
      renderCitationSection m = none) ∧
    (∀ cs, m.citations = some cs → cs ≠ [] →
      renderCitationSection m = some (cs.map fun c =>
        { badgeText := c.source ++ " " ++ c.reference, tooltip := c.text })) := by
  constructor
  · rintro (h | h) <;> simp [renderCitationSection, h]
  · intro cs hcs hne
    simp only [renderCitationSection, hcs]
    rw [if_pos (List.length_pos.mpr hne)]

/-- C10 witness: a message without citations renders no section, and a
message with one citation renders its badge and tooltip. -/
theorem renderCitationSection_behaviour_witness :
    renderCitationSection msgNoCitations = none ∧
    renderCitationSection msgOneCitation =
      some [{ badgeText := "Finance Act 2023 Section 15",
              tooltip := "Section 15 provides ..." }] := by
  constructor
  · exact (renderCitationSection_behaviour msgNoCitations).1 (Or.inl rfl)
  · rw [(renderCitationSection_behaviour msgOneCitation).2 [citW] rfl
      (by decide)]
    rfl

theorem candLE_trans (a b c : QueryCandidate) (hab : candLE a b)
    (hbc : candLE b c) : candLE a c := by
  simp only [candLE, decide_eq_true_eq] at *
  rcases hab with hab | ⟨hab, hab'⟩ <;> rcases hbc with hbc | ⟨hbc, hbc'⟩
  · exact Or.inl (hbc.trans hab)
  · exact Or.inl (hbc ▸ hab)
  · exact Or.inl (hab ▸ hbc)
  · exact Or.inr ⟨hab.trans hbc, hab'.trans hbc'⟩

theorem candLE_total (a b : QueryCandidate) : candLE a b || candLE b a := by
  simp only [candLE, Bool.or_eq_true, decide_eq_true_eq]
  rcases lt_trichotomy a.fusedScore b.fusedScore with h | h | h
  · exact Or.inr (Or.inl h)
  · rcases Nat.le_total a.chunkVersionId b.chunkVersionId with hid | hid
    · exact Or.inl (Or.inr ⟨h, hid⟩)
    · exact Or.inr (Or.inr ⟨h.symm, hid⟩)
  · exact Or.inl (Or.inl h)

/-- C2: the candidate list returned by the Hybrid Retriever is sorted by
non-increasing fused score, and candidates with equal fused score appear
in ascending order of `chunkVersionId` (stated for every query with at
least one matching chunk in either index). -/
theorem hybrid_candidates_sorted (cfg : RetrievalConfig)
    (lexRanked vecRanked : List ℕ)
    (hne : lexRanked ≠ [] ∨ vecRanked ≠ []) :
    (fuse cfg lexRanked vecRanked).Pairwise fun a b =>
      b.fusedScore ≤ a.fusedScore ∧
        (a.fusedScore = b.fusedScore →
          a.chunkVersionId ≤ b.chunkVersionId) := by
  have hsorted := @List.sorted_mergeSort QueryCandidate candLE
    (fun a b c => candLE_trans a b c) candLE_total
    ((dedupIds (lexRanked ++ vecRanked)).map fun id =>
      { chunkVersionId := id
        fusedScore := rrfContribution cfg.wLex cfg.kappa lexRanked id +
          rrfContribution cfg.wVec cfg.kappa vecRanked id :
        QueryCandidate })
  have htake := hsorted.sublist (List.take_sublist cfg.topN _)
  refine htake.imp ?_
  intro a b h
  simp only [candLE, decide_eq_true_eq] at h
  rcases h with h | ⟨h, h'⟩
  · exact ⟨le_of_lt h, fun e => absurd (e ▸ h) (lt_irrefl _)⟩
  · exact ⟨le_of_eq h.symm, fun _ => h'⟩

/-- C2 witness: the sortedness property at a concrete query result with a
non-empty lexical index side. -/
theorem hybrid_candidates_sorted_witness :
    (fuse cfgW [1, 2] [2, 3]).Pairwise fun a b =>
      b.fusedScore ≤ a.fusedScore ∧
        (a.fusedScore = b.fusedScore →
          a.chunkVersionId ≤ b.chunkVersionId) :=
  hybrid_candidates_sorted cfgW [1, 2] [2, 3] (Or.inl (by decide))

/-- C3: every candidate's fused score is the sum of the two weighted
reciprocal-rank contributions computed from its rank positions in the
lexical and vector lists, and a list in which the candidate does not
appear contributes zero. -/
theorem fused_score_formula (cfg : RetrievalConfig)
    (lexRanked vecRanked : List ℕ) (c : QueryCandidate)
    (hc : c ∈ fuse cfg lexRanked vecRanked) :
    c.fusedScore =
      rrfContribution cfg.wLex cfg.kappa lexRanked c.chunkVersionId +
        rrfContribution cfg.wVec cfg.kappa vecRanked c.chunkVersionId ∧
    (∀ r, rankOf lexRanked c.chunkVersionId = some r →
      rrfContribution cfg.wLex cfg.kappa lexRanked c.chunkVersionId =
        cfg.wLex / ((r : ℚ) + (cfg.kappa : ℚ))) ∧
    (∀ r, rankOf vecRanked c.chunkVersionId = some r →
      rrfContribution cfg.wVec cfg.kappa vecRanked c.chunkVersionId =
        cfg.wVec / ((r : ℚ) + (cfg.kappa : ℚ))) ∧
    (c.chunkVersionId ∉ lexRanked →
      rrfContribution cfg.wLex cfg.kappa lexRanked c.chunkVersionId = 0) ∧
    (c.chunkVersionId ∉ vecRanked →
      rrfContribution cfg.wVec cfg.kappa vecRanked c.chunkVersionId = 0) := by
  refine ⟨?_, fun r hr => by rw [rrfContribution, hr],
    fun r hr => by rw [rrfContribution, hr],
    fun h => rrfContribution_of_not_mem _ _ _ _ h,
    fun h => rrfContribution_of_not_mem _ _ _ _ h⟩
  have hmem : c ∈ ((dedupIds (lexRanked ++ vecRanked)).map fun id =>
      { chunkVersionId := id
        fusedScore := rrfContribution cfg.wLex cfg.kappa lexRanked id +
          rrfContribution cfg.wVec cfg.kappa vecRanked id :
        QueryCandidate }).mergeSort candLE :=
    List.mem_of_mem_take hc
  rw [List.mem_mergeSort] at hmem
  rcases List.mem_map.mp hmem with ⟨id, _, rfl⟩
  rfl

/-- C3 witness: the fused-score decomposition at a concrete candidate of
a concrete query (the chunk appears only in the lexical list, so the
vector term is zero). -/
theorem fused_score_formula_witness :
    ({ chunkVersionId := 5
       fusedScore := rrfContribution cfgW.wLex cfgW.kappa [5] 5 +
         rrfContribution cfgW.wVec cfgW.kappa [] 5 :
     QueryCandidate }).fusedScore =
      rrfContribution cfgW.wLex cfgW.kappa [5] 5 +
        rrfContribution cfgW.wVec cfgW.kappa [] 5 ∧
    (∀ r, rankOf [5] 5 = some r →
      rrfContribution cfgW.wLex cfgW.kappa [5] 5 =
        cfgW.wLex / ((r : ℚ) + (cfgW.kappa : ℚ))) ∧
    (∀ r, rankOf [] 5 = some r →
      rrfContribution cfgW.wVec cfgW.kappa [] 5 =
        cfgW.wVec / ((r : ℚ) + (cfgW.kappa : ℚ))) ∧
    (5 ∉ ([5] : List ℕ) →
      rrfContribution cfgW.wLex cfgW.kappa [5] 5 = 0) ∧
    (5 ∉ ([] : List ℕ) →
      rrfContribution cfgW.wVec cfgW.kappa [] 5 = 0) :=
  fused_score_formula cfgW [5] [] _ (by
    simp [fuse, dedupIds, dedupKey, dedupKeyAux, cfgW])

theorem selectChunks_pairwise_not_near (parent : ParentMap)
    (threshold budget : ℕ) :
    ∀ (cands included : List Chunk) (used : ℕ),
      included.Pairwise (fun a b =>
        hierarchyNear parent threshold a.nodeId b.nodeId = false) →
      (selectChunks parent threshold budget cands included used).1.Pairwise
        (fun a b =>
          hierarchyNear parent threshold a.nodeId b.nodeId = false) := by
  intro cands
  induction cands with
  | nil =>
    intro included used h
    simpa [selectChunks] using h
  | cons c rest ih =>
    intro included used h
    rw [selectChunks]
    by_cases hskip :
        included.any fun i => hierarchyNear parent threshold i.nodeId c.nodeId
    · rw [if_pos hskip]
      exact ih included used h
    · rw [if_neg hskip]
      by_cases hbudget : used + c.tokens > budget
      · rw [if_pos hbudget]
        exact h
      · rw [if_neg hbudget]
        refine ih (included ++ [c]) (used + c.tokens) ?_
        rw [List.pairwise_append]
        refine ⟨h, List.pairwise_singleton _ _, ?_⟩
        intro a ha b hb
        rcases List.mem_singleton.mp hb with rfl
        exact Bool.eq_false_iff.mpr
          (List.any_eq_false.mp (Bool.eq_false_iff.mpr hskip) a ha)

/-- C8: the assembled context block never contains two chunks whose
`LegislationNode`s are ancestor/descendant within the configured distance
threshold; concretely, in Scenario D (child node within threshold 1 of
its parent, parent candidate ranked first) only the earlier,
higher-fused-score candidate is included. -/
theorem context_assembler_no_nested (parent : ParentMap)
    (threshold budget : ℕ) (cands : List Chunk) :
    ((assemble parent threshold budget cands).entries.map fun e =>
        e.chunk).Pairwise (fun a b =>
      hierarchyNear parent threshold a.nodeId b.nodeId = false) ∧
    ((assemble parentD 1 100 [chunkD1, chunkD2]).entries.map fun e =>
      e.chunk.chunkVersionId) = [1] := by
  constructor
  · have hsel := selectChunks_pairwise_not_near parent threshold budget
      cands [] 0 (List.Pairwise.nil)
    have hmap : ((assemble parent threshold budget cands).entries.map
        fun e => e.chunk) =
        (selectChunks parent threshold budget cands [] 0).1 := by
      rw [assemble]
      rw [List.map_map]
      have : (selectChunks parent threshold budget cands [] 0).1.enum.map
          ((fun e => e.chunk) ∘ fun p =>
            { label := labelOf p.1, chunk := p.2 : ContextEntry }) =
          (selectChunks parent threshold budget cands [] 0).1.enum.map
            Prod.snd := rfl
      rw [this, List.enum, List.enumFrom_map_snd]
    rw [hmap]
    exact hsel
  · decide

theorem citedChunks_subset (ctx : List ContextEntry)
    (parts : List AnswerPart) :
    ∀ c ∈ citedChunks ctx parts, ∃ e ∈ ctx, e.chunk = c := by
  intro c hc
  rw [citedChunks] at hc
  split at hc
  · rcases List.mem_map.mp hc with ⟨e, he, rfl⟩
    exact ⟨e, he, rfl⟩
  · rw [resolveAnchors] at hc
    rcases List.mem_filterMap.mp hc with ⟨l, _, hfind⟩
    cases hfind' : ctx.find? fun e => e.label == l with
    | none => rw [hfind'] at hfind; simp at hfind
    | some e =>
      rw [hfind'] at hfind
      simp only [Option.map_some'] at hfind
      exact ⟨e, List.mem_of_find?_eq_some hfind',
        Option.some.inj hfind⟩

/-- C1: every citation the binder returns refers to a chunk present in
the response's context block, and an answer whose anchors all fail to
resolve yields no citations at all (a dangling anchor is dropped, never
surfaced as a fabricated citation). -/
theorem citations_never_fabricated (ctx : List ContextEntry)
    (parts : List AnswerPart) :
    (∀ cit ∈ bindCitations ctx parts,
      cit.chunkVersionId ∈ ctx.map fun e => e.chunk.chunkVersionId) ∧
    (anchorsOf parts ≠ [] →
      (∀ l ∈ anchorsOf parts, ctx.find? (fun e => e.label == l) = none) →
      bindCitations ctx parts = []) := by
  constructor
  · intro cit hcit
    rcases List.mem_map.mp hcit with ⟨c, hcdd, rfl⟩
    have hc : c ∈ citedChunks ctx parts :=
      mem_of_mem_dedupKeyAux _ _ hcdd
    rcases citedChunks_subset ctx parts c hc with ⟨e, he, hec⟩
    exact List.mem_map.mpr ⟨e, he, by rw [hec]⟩
  · intro hanch hnone
    have hres : resolveAnchors ctx (anchorsOf parts) = [] := by
      rw [resolveAnchors, List.filterMap_eq_nil_iff]
      intro l hl
      rw [hnone l hl]
      rfl
    rw [bindCitations, citedChunks, if_neg hanch, hres]
    rfl

/-- C1 witness: against the Scenario A context, an answer whose only
anchor `[C9]` resolves to no context chunk produces no citations, and
the subset property holds at that input. -/
theorem citations_never_fabricated_witness :
    (∀ cit ∈ bindCitations scenarioAContext [.text "a", .anchor "[C9]"],
      cit.chunkVersionId ∈ scenarioAContext.map fun e =>
        e.chunk.chunkVersionId) ∧
    bindCitations scenarioAContext [.text "a", .anchor "[C9]"] = [] :=
  ⟨(citations_never_fabricated scenarioAContext
      [.text "a", .anchor "[C9]"]).1,
   (citations_never_fabricated scenarioAContext
      [.text "a", .anchor "[C9]"]).2 (by decide) (by decide)⟩

/-- C7: the citation list contains at most one citation per
`chunkVersionId`, covers every cited chunk's id, and lists citations in
the order of each chunk id's first appearance among the chunks cited by
the answer. -/
theorem citations_dedup_first_appearance (ctx : List ContextEntry)
    (parts : List AnswerPart) :
    ((bindCitations ctx parts).map fun cit => cit.chunkVersionId).Nodup ∧
    (∀ ch ∈ citedChunks ctx parts,
      ch.chunkVersionId ∈ (bindCitations ctx parts).map fun cit =>
        cit.chunkVersionId) ∧
    (bindCitations ctx parts).Pairwise (fun a b =>
      firstIdx ((citedChunks ctx parts).map fun ch => ch.chunkVersionId)
          a.chunkVersionId <
        firstIdx ((citedChunks ctx parts).map fun ch => ch.chunkVersionId)
          b.chunkVersionId) := by
  have hmapmap : ((bindCitations ctx parts).map fun cit =>
      cit.chunkVersionId) =
      (dedupKeyAux Chunk.chunkVersionId [] (citedChunks ctx parts)).map
        Chunk.chunkVersionId := by
    rw [bindCitations, dedupKey, List.map_map]
    rfl
  refine ⟨?_, ?_, ?_⟩
  · rw [hmapmap]
    exact nodup_map_key_dedupKeyAux [] _
  · intro ch hch
    rw [hmapmap]
    rcases key_mem_of_mem_dedupKeyAux [] (citedChunks ctx parts) ch hch with
      h | h
    · simp at h
    · exact h
  · rw [bindCitations, dedupKey]
    rw [List.pairwise_map]
    exact pairwise_firstIdx_dedupKeyAux [] (citedChunks ctx parts)

/-- C5: every successful `ask(queryText, asOfDate?)` call returns a
record of exactly an `answerText` (the generated text), a citation list
whose elements carry exactly the fields `source`, `reference` and `text`
(the bound citations on the wire shape), and a boolean `truncated` flag
(the assembler's truncation flag). -/
theorem ask_result_fields (cfg : RetrievalConfig) (idx : Indexes)
    (store : ℕ → Option Chunk) (parent : ParentMap) (threshold budget : ℕ)
    (gen : List ContextEntry → List AnswerPart) (queryText : String)
    (asOfDate : Option ℕ) (r : AskResult)
    (h : ask cfg idx store parent threshold budget gen queryText asOfDate =
      .ok r) :
    (∃ (parts : List AnswerPart) (ctx : ContextBlock),
      r = { answerText := answerTextOf parts
            citations := (bindCitations ctx.entries parts).map Citation.toWire
            truncated := ctx.truncated }) ∧
    (∀ c ∈ r.citations,
      c = { source := c.source, reference := c.reference, text := c.text }) := by
  constructor
  · rw [ask] at h
    cases hr : retrieve cfg idx queryText asOfDate with
    | error e => rw [hr] at h; exact absurd h (by simp)
    | ok cands =>
      rw [hr] at h
      simp only [Except.ok.injEq] at h
      exact ⟨_, _, h.symm⟩
  · intro c _
    rfl

/-- C5 witness: a concrete end-to-end call of `ask` — one lexical hit,
one stored chunk, a generator echoing `[C1]` — returns the concrete
result record, whose fields satisfy the shape property. -/
theorem ask_result_fields_witness :
    (∃ (parts : List AnswerPart) (ctx : ContextBlock),
      ({ answerText := "The standard rate is 20 per cent. "
         citations := [{ source := "legislation"
                         reference := "Finance Act 2023, Section 15"
                         text := "Section 15 ... 20 per cent on the first EUR 40,000 ..." }]
         truncated := false : AskResult }) =
        { answerText := answerTextOf parts
          citations := (bindCitations ctx.entries parts).map Citation.toWire
          truncated := ctx.truncated }) ∧
    (∀ c ∈ ({ answerText := "The standard rate is 20 per cent. "
              citations := [{ source := "legislation"
                              reference := "Finance Act 2023, Section 15"
                              text := "Section 15 ... 20 per cent on the first EUR 40,000 ..." }]
              truncated := false : AskResult }).citations,
      c = { source := c.source, reference := c.reference, text := c.text }) :=
  ask_result_fields cfgW idxSingle storeW (fun _ => none) 1 100 genW
    "income tax rates" none _ (by
      rw [ask, retrieve, if_neg (by decide)]
      simp [idxSingle, fuse, dedupIds, dedupKey, dedupKeyAux, storeW, genW,
        assemble, selectChunks, bindCitations, citedChunks, resolveAnchors,
        anchorsOf, answerTextOf, cfgW, labelOf, renderReference,
        sourceTypeName, Citation.toWire, rrfContribution, rankOf,
        hierarchyNear, ancestorWithin, String.join]
      decide)

/-- C7 witness: the deduplication and first-appearance-order property at
the concrete Scenario A context and answer. -/
theorem citations_dedup_first_appearance_witness :
    ((bindCitations scenarioAContext scenarioAAnswer).map fun cit =>
      cit.chunkVersionId).Nodup ∧
    (∀ ch ∈ citedChunks scenarioAContext scenarioAAnswer,
      ch.chunkVersionId ∈ (bindCitations scenarioAContext
        scenarioAAnswer).map fun cit => cit.chunkVersionId) ∧
    (bindCitations scenarioAContext scenarioAAnswer).Pairwise (fun a b =>
      firstIdx ((citedChunks scenarioAContext scenarioAAnswer).map fun ch =>
          ch.chunkVersionId) a.chunkVersionId <
        firstIdx ((citedChunks scenarioAContext scenarioAAnswer).map
          fun ch => ch.chunkVersionId) b.chunkVersionId) :=
  citations_dedup_first_appearance scenarioAContext scenarioAAnswer

/-- C8 witness: the no-nested-context invariant applied at the Scenario D
input. -/
theorem context_assembler_no_nested_witness :
    ((assemble parentD 1 100 [chunkD1, chunkD2]).entries.map fun e =>
        e.chunk).Pairwise (fun a b =>
      hierarchyNear parentD 1 a.nodeId b.nodeId = false) ∧
    ((assemble parentD 1 100 [chunkD1, chunkD2]).entries.map fun e =>
      e.chunk.chunkVersionId) = [1] :=
  context_assembler_no_nested parentD 1 100 [chunkD1, chunkD2]

end TaxPal
